import Mathlib

/-!
Shallow embedding of the BlitzBallz physics-and-trajectory core in Lean 4.

Coordinates, velocities and times are embedded as exact rationals (the
source runs on JS doubles; all branch conditions of the embedded code are
order comparisons and the claims under study are about exact branch
structure, not float rounding).  `Math.sqrt` does not stay inside ℚ, so
every function whose source calls it takes an explicit square-root oracle
`sq : ℚ → ℚ` standing for `Math.sqrt`; theorems that depend on the value of
a square root carry the hypothesis that the oracle is correct at exactly
the arguments the source computes.  Structural theorems hold for every
oracle.
-/

namespace BlitzBallz

/-- 2D vector, from `src/types.ts` (`Vector2`). -/
structure Vector2 where
  x : ℚ
  y : ℚ
deriving DecidableEq, Repr

/-- Ball entity, from `src/types.ts` (`Ball`). -/
structure Ball where
  id : ℤ
  position : Vector2
  velocity : Vector2
  active : Bool
deriving DecidableEq, Repr

/-- Brick entity, from `src/types.ts` (`Brick`). -/
structure Brick where
  id : ℤ
  gridX : ℤ
  gridY : ℤ
  hits : ℤ
  destroying : Bool
  destroyProgress : ℚ
deriving DecidableEq, Repr

/-- Brick rectangle in play-area coordinates, from `Physics.ts`
(`BrickBounds`). -/
structure BrickBounds where
  left : ℚ
  right : ℚ
  top : ℚ
  bottom : ℚ
deriving DecidableEq, Repr

/-- Trajectory preview point, from `src/types.ts` (`TrajectoryPoint`). -/
structure TrajectoryPoint where
  position : Vector2
  isBounce : Bool
deriving DecidableEq, Repr

/-- Raycast hit record, the anonymous `{ point, normal, distance }` result
type of `Physics.raycastWall` / `Physics.raycastBrick`. -/
structure Hit where
  point : Vector2
  normal : Vector2
  distance : ℚ
deriving DecidableEq, Repr

/-- The wall a ball bounced off, the `side` field of
`Physics.checkWallCollision`'s result (`'left' | 'right' | 'top'`). -/
inductive WallSide where
  | left
  | right
  | top
deriving DecidableEq, Repr

/-- The brick face hit, the `face` field of `Physics.checkBrickCollision`'s
result (`'top' | 'bottom' | 'left' | 'right' | 'corner'`). -/
inductive Face where
  | top
  | bottom
  | left
  | right
  | corner
deriving DecidableEq, Repr

/-- `MAX_TRAJECTORY_BOUNCES` from `src/constants.ts`. -/
def MAX_TRAJECTORY_BOUNCES : ℕ := 4

/-- `GRID_ROWS` from `src/constants.ts`. -/
def GRID_ROWS : ℤ := 11

/-- `BRICK_HIT_VARIANCE` from `src/constants.ts` (`0.2`). -/
def BRICK_HIT_VARIANCE : ℚ := 1/5

/-- `Physics.updateBall`: integrates `position += velocity * (deltaTime *
speedMultiplier)` for an active ball; an inactive ball is returned
unchanged (the source's early `if (!ball.active) return`). -/
def updateBall (ball : Ball) (deltaTime speedMultiplier : ℚ) : Ball :=
  if ball.active = false then ball
  else
    let dt := deltaTime * speedMultiplier
    { ball with
      position := ⟨ball.position.x + ball.velocity.x * dt,
                   ball.position.y + ball.velocity.y * dt⟩ }

/-- `Physics.checkWallCollision`: tests the left, right and top boundaries
in that order with early return; on contact clamps the position and
replaces the offending velocity component by `±Math.abs(...)`.  Returns the
mutated ball together with the `side` field of the source's result
(`none` embeds `side: null` / `collided: false`). -/
def checkWallCollision (gameWidth ballRadius : ℚ) (ball : Ball) :
    Ball × Option WallSide :=
  let r := ballRadius
  if ball.position.x - r ≤ 0 then
    ({ ball with
        position := ⟨r, ball.position.y⟩,
        velocity := ⟨|ball.velocity.x|, ball.velocity.y⟩ }, some WallSide.left)
  else if gameWidth ≤ ball.position.x + r then
    ({ ball with
        position := ⟨gameWidth - r, ball.position.y⟩,
        velocity := ⟨-|ball.velocity.x|, ball.velocity.y⟩ }, some WallSide.right)
  else if ball.position.y - r ≤ 0 then
    ({ ball with
        position := ⟨ball.position.x, r⟩,
        velocity := ⟨ball.velocity.x, |ball.velocity.y|⟩ }, some WallSide.top)
  else (ball, none)

/-- The corner x-coordinate `checkBrickCollision` selects:
`bx < brickBounds.left ? brickBounds.left : brickBounds.right`. -/
def cornerXOf (brickBounds : BrickBounds) (bx : ℚ) : ℚ :=
  if bx < brickBounds.left then brickBounds.left else brickBounds.right

/-- The corner y-coordinate `checkBrickCollision` selects:
`by < brickBounds.top ? brickBounds.top : brickBounds.bottom`. -/
def cornerYOf (brickBounds : BrickBounds) (b_y : ℚ) : ℚ :=
  if b_y < brickBounds.top then brickBounds.top else brickBounds.bottom

/-- Squared distance from the ball centre `(bx, b_y)` to the corner point
`checkBrickCollision` selects; the source's `distToCorner` is
`Math.sqrt` of this value. -/
def cornerDist2 (brickBounds : BrickBounds) (bx b_y : ℚ) : ℚ :=
  (bx - cornerXOf brickBounds bx)^2 + (b_y - cornerYOf brickBounds b_y)^2

/-- `Physics.checkBrickCollision`.  `sq` stands for `Math.sqrt` (the
source's `distToCorner = Math.sqrt(...)`); the corner push along
`(Math.cos pushAngle, Math.sin pushAngle)` with
`pushAngle = Math.atan2(by - cornerY, bx - cornerX)` is embedded by the
identity `(cos (atan2 dy dx), sin (atan2 dy dx)) = (dx, dy) / sqrt (dx² + dy²)`,
so the pushed position is `corner + (d / distToCorner) * (r + 1)`.
The variable `b_y` embeds the source's `by` (a Lean keyword). -/
def checkBrickCollision (sq : ℚ → ℚ) (ballRadius : ℚ) (ball : Ball)
    (brickBounds : BrickBounds) : Ball × Option Face :=
  let r := ballRadius
  let bx := ball.position.x
  let b_y := ball.position.y
  let expandedLeft := brickBounds.left - r
  let expandedRight := brickBounds.right + r
  let expandedTop := brickBounds.top - r
  let expandedBottom := brickBounds.bottom + r
  if bx < expandedLeft ∨ bx > expandedRight ∨ b_y < expandedTop ∨ b_y > expandedBottom then
    (ball, none)
  else
    let overlapLeft := bx - expandedLeft
    let overlapRight := expandedRight - bx
    let overlapTop := b_y - expandedTop
    let overlapBottom := expandedBottom - b_y
    let minOverlapX := min overlapLeft overlapRight
    let minOverlapY := min overlapTop overlapBottom
    if (bx < brickBounds.left ∨ bx > brickBounds.right) ∧
        (b_y < brickBounds.top ∨ b_y > brickBounds.bottom) then
      let cornerX := cornerXOf brickBounds bx
      let cornerY := cornerYOf brickBounds b_y
      let distToCorner := sq (cornerDist2 brickBounds bx b_y)
      if distToCorner ≤ r then
        ({ ball with
            velocity := ⟨-ball.velocity.x, -ball.velocity.y⟩,
            position := ⟨cornerX + ((bx - cornerX) / distToCorner) * (r + 1),
                         cornerY + ((b_y - cornerY) / distToCorner) * (r + 1)⟩ },
          some Face.corner)
      else (ball, none)
    else
      if minOverlapX < minOverlapY then
        if overlapLeft < overlapRight then
          ({ ball with
              velocity := ⟨-|ball.velocity.x|, ball.velocity.y⟩,
              position := ⟨expandedLeft - 1, b_y⟩ }, some Face.left)
        else
          ({ ball with
              velocity := ⟨|ball.velocity.x|, ball.velocity.y⟩,
              position := ⟨expandedRight + 1, b_y⟩ }, some Face.right)
      else
        if overlapTop < overlapBottom then
          ({ ball with
              velocity := ⟨ball.velocity.x, -|ball.velocity.y|⟩,
              position := ⟨bx, expandedTop - 1⟩ }, some Face.top)
        else
          ({ ball with
              velocity := ⟨ball.velocity.x, |ball.velocity.y|⟩,
              position := ⟨bx, expandedBottom + 1⟩ }, some Face.bottom)

/-- `Physics.getBrickBounds`. -/
def getBrickBounds (brick : Brick) (cellWidth cellHeight gridOffsetX gridOffsetY gap : ℚ) :
    BrickBounds :=
  let x := gridOffsetX + (brick.gridX : ℚ) * cellWidth + gap / 2
  let y := gridOffsetY + (brick.gridY : ℚ) * cellHeight + gap / 2
  let width := cellWidth - gap
  let height := cellHeight - gap
  ⟨x, x + width, y, y + height⟩

/-- `normalizeVector` from `src/utils/Vector2.ts`: `v / magnitude(v)`, the
zero vector for a zero magnitude.  `sq` stands for `Math.sqrt`, so
`magnitude v = sq (v.x² + v.y²)`. -/
def normalizeVector (sq : ℚ → ℚ) (v : Vector2) : Vector2 :=
  let mag := sq (v.x^2 + v.y^2)
  if mag = 0 then ⟨0, 0⟩ else ⟨v.x / mag, v.y / mag⟩

/-- `dotProduct` from `src/utils/Vector2.ts`. -/
def dotProduct (a b : Vector2) : ℚ :=
  a.x * b.x + a.y * b.y

/-- `reflectVector` from `src/utils/Vector2.ts`: `v - 2 (v·n) n`. -/
def reflectVector (v normal : Vector2) : Vector2 :=
  let d := dotProduct v normal
  ⟨v.x - 2 * d * normal.x, v.y - 2 * d * normal.y⟩

/-- `Physics.raycastWall`: collects candidate hits on the left, right and
top wall planes (each offset inward by the ball radius), keeps only those
whose hit point lies in the playable vertical/horizontal range, and
returns the nearest by distance (the source's `reduce`, which keeps the
earlier hit on ties).  `sq` stands for `Math.sqrt` in
`dist = t * Math.sqrt(direction.x² + direction.y²)`. -/
def raycastWall (sq : ℚ → ℚ) (gameWidth ballRadius launchZoneTop : ℚ)
    (origin direction : Vector2) : Option Hit :=
  let r := ballRadius
  let dirMag := sq (direction.x^2 + direction.y^2)
  let hits : List Hit := []
  let hits := if direction.x < 0 then
      let t := (r - origin.x) / direction.x
      if t > 0 then
        let point : Vector2 := ⟨r, origin.y + direction.y * t⟩
        if point.y ≥ r ∧ point.y ≤ launchZoneTop - r then
          hits ++ [⟨point, ⟨1, 0⟩, t * dirMag⟩]
        else hits
      else hits
    else hits
  let hits := if direction.x > 0 then
      let t := (gameWidth - r - origin.x) / direction.x
      if t > 0 then
        let point : Vector2 := ⟨gameWidth - r, origin.y + direction.y * t⟩
        if point.y ≥ r ∧ point.y ≤ launchZoneTop - r then
          hits ++ [⟨point, ⟨-1, 0⟩, t * dirMag⟩]
        else hits
      else hits
    else hits
  let hits := if direction.y < 0 then
      let t := (r - origin.y) / direction.y
      if t > 0 then
        let point : Vector2 := ⟨origin.x + direction.x * t, r⟩
        if point.x ≥ r ∧ point.x ≤ gameWidth - r then
          hits ++ [⟨point, ⟨0, 1⟩, t * dirMag⟩]
        else hits
      else hits
    else hits
  match hits with
  | [] => none
  | h :: rest =>
    some (rest.foldl (fun closest hit =>
      if hit.distance < closest.distance then hit else closest) h)

/-- `Physics.raycastBrick`: slab-based ray/AABB intersection against the
radius-expanded brick rectangle.  The source's mutable `tMin`/`tMax`/
`hitNormal` (with `tMax` starting at `Infinity`, embedded as `none`) are
threaded through two per-axis steps; a zero direction component instead
tests that the origin lies between that axis's expanded planes.  `sq`
stands for `Math.sqrt` in `distance = tMin * Math.sqrt(...)`. -/
def raycastBrick (sq : ℚ → ℚ) (ballRadius : ℚ) (origin direction : Vector2)
    (bounds : BrickBounds) : Option Hit :=
  let r := ballRadius
  let expandedLeft := bounds.left - r
  let expandedRight := bounds.right + r
  let expandedTop := bounds.top - r
  let expandedBottom := bounds.bottom + r
  let xStep : Option (ℚ × Option ℚ × Vector2) :=
    if direction.x ≠ 0 then
      let t1 := (expandedLeft - origin.x) / direction.x
      let t2 := (expandedRight - origin.x) / direction.x
      let tNear := min t1 t2
      let tFar := max t1 t2
      if tNear > 0 then
        some (tNear, some tFar, if direction.x > 0 then ⟨-1, 0⟩ else ⟨1, 0⟩)
      else
        some (0, some tFar, ⟨0, 0⟩)
    else
      if origin.x < expandedLeft ∨ origin.x > expandedRight then none
      else some (0, none, ⟨0, 0⟩)
  match xStep with
  | none => none
  | some (tMin₁, tMax₁, normal₁) =>
    let yStep : Option (ℚ × Option ℚ × Vector2) :=
      if direction.y ≠ 0 then
        let t1 := (expandedTop - origin.y) / direction.y
        let t2 := (expandedBottom - origin.y) / direction.y
        let tNear := min t1 t2
        let tFar := max t1 t2
        let upd := if tNear > tMin₁ then
            (tNear, if direction.y > 0 then (⟨0, -1⟩ : Vector2) else ⟨0, 1⟩)
          else (tMin₁, normal₁)
        let tMax₂ : Option ℚ := match tMax₁ with
          | none => some tFar
          | some m => some (min m tFar)
        some (upd.1, tMax₂, upd.2)
      else
        if origin.y < expandedTop ∨ origin.y > expandedBottom then none
        else some (tMin₁, tMax₁, normal₁)
    match yStep with
    | none => none
    | some (tMin, tMax, hitNormal) =>
      let hit : Option Hit :=
        some ⟨⟨origin.x + direction.x * tMin, origin.y + direction.y * tMin⟩,
              hitNormal, tMin * sq (direction.x^2 + direction.y^2)⟩
      match tMax with
      | some m => if tMin > m ∨ tMin < 0 then none else hit
      | none => if tMin < 0 then none else hit

/-- The geometry arguments threaded through
`TrajectoryCalculator.calculateTrajectory` (the play-area dimensions the
`Physics` instance holds plus the per-call grid parameters). -/
structure TrajParams where
  gameWidth : ℚ
  ballRadius : ℚ
  cellWidth : ℚ
  cellHeight : ℚ
  gridOffsetX : ℚ
  gridOffsetY : ℚ
  gap : ℚ
  launchZoneTop : ℚ
deriving DecidableEq, Repr

/-- The trajectory loop's brick scan (`for (const brick of bricks)` in
`calculateTrajectory`): skips destroying bricks, raycasts against each
brick's bounds, and adopts a hit as `closestHit` only when its distance
exceeds `0.1` and it beats the current candidate. -/
def foldBrickHits (sq : ℚ → ℚ) (p : TrajParams) (bricks : List Brick)
    (pos dir : Vector2) (acc : Option Hit) : Option Hit :=
  bricks.foldl (fun closestHit brick =>
    if brick.destroying = true then closestHit
    else
      let bounds := getBrickBounds brick p.cellWidth p.cellHeight p.gridOffsetX
        p.gridOffsetY p.gap
      match raycastBrick sq p.ballRadius pos dir bounds with
      | none => closestHit
      | some brickHit =>
        if brickHit.distance > 1/10 then
          match closestHit with
          | none => some brickHit
          | some c => if brickHit.distance < c.distance then some brickHit else closestHit
        else closestHit) acc

/-- The bottom-boundary test of the trajectory loop (lines 66-80 of
`TrajectoryCalculator.ts`): when the direction points downward and the
bottom plane is in front and closer than any wall/brick hit, the
trajectory ends at that bottom point. -/
def bottomStopPoint (p : TrajParams) (pos dir : Vector2) (closestHit : Option Hit) :
    Option Vector2 :=
  if dir.y > 0 then
    let tBottom := (p.launchZoneTop - pos.y) / dir.y
    if tBottom > 0 then
      match closestHit with
      | none => some ⟨pos.x + dir.x * tBottom, p.launchZoneTop⟩
      | some c =>
        if tBottom < c.distance then some ⟨pos.x + dir.x * tBottom, p.launchZoneTop⟩
        else none
    else none
  else none

/-- The `while (bounceCount < MAX_TRAJECTORY_BOUNCES)` loop of
`calculateTrajectory`, by recursion on the remaining bounce budget.
Returns the points the loop pushes after the starting point, the final
`currentDir`, and whether the loop stopped because the bounce cap was
reached (rather than by a `break`). -/
def trajLoop (sq : ℚ → ℚ) (p : TrajParams) (bricks : List Brick) :
    ℕ → Vector2 → Vector2 → List TrajectoryPoint × Vector2 × Bool
  | 0, _, dir => ([], dir, true)
  | fuel + 1, pos, dir =>
    let wallHit := raycastWall sq p.gameWidth p.ballRadius p.launchZoneTop pos dir
    let closest₀ : Option Hit := match wallHit with
      | some h => if h.distance > 1/10 then some h else none
      | none => none
    let closestHit := foldBrickHits sq p bricks pos dir closest₀
    match bottomStopPoint p pos dir closestHit with
    | some bottomPoint => ([⟨bottomPoint, false⟩], dir, false)
    | none =>
      match closestHit with
      | none => ([⟨⟨pos.x + dir.x * 2000, pos.y + dir.y * 2000⟩, false⟩], dir, false)
      | some hit =>
        let rest := trajLoop sq p bricks fuel hit.point (reflectVector dir hit.normal)
        (⟨hit.point, true⟩ :: rest.1, rest.2)

/-- `TrajectoryCalculator.calculateTrajectory`: normalizes the aim
direction, pushes the start point (non-bounce), runs the bounce loop, and
when the loop exhausted the bounce cap appends one final straight
extension segment (non-bounce). -/
def calculateTrajectory (sq : ℚ → ℚ) (p : TrajParams) (startPosition direction : Vector2)
    (bricks : List Brick) : List TrajectoryPoint :=
  let normalizedDir := normalizeVector sq direction
  let res := trajLoop sq p bricks MAX_TRAJECTORY_BOUNCES startPosition normalizedDir
  let points : List TrajectoryPoint := ⟨startPosition, false⟩ :: res.1
  if res.2.2 = true ∧ points.length > 0 then
    match points.getLast? with
    | some lastPoint =>
      points ++ [⟨⟨lastPoint.position.x + res.2.1.x * 500,
                   lastPoint.position.y + res.2.1.y * 500⟩, false⟩]
    | none => points
  else points

/-- Pickup type, from `src/types.ts` (`PickupType`). -/
inductive PickupType where
  | ball
  | x2
  | x3
  | x5
  | x10
deriving DecidableEq, Repr

/-- `PICKUP_WEIGHTS` from `src/constants.ts`, in JS object insertion order
(the order `Object.entries` / `Object.values` iterate):
`{ ball: 1.0, x2: 0, x3: 0, x5: 0, x10: 0 }`. -/
def PICKUP_WEIGHTS : List (PickupType × ℚ) :=
  [(PickupType.ball, 1), (PickupType.x2, 0), (PickupType.x3, 0),
   (PickupType.x5, 0), (PickupType.x10, 0)]

/-- `Object.values(PICKUP_WEIGHTS).reduce((sum, w) => sum + w, 0)` in
`GridManager.getRandomPickupType`. -/
def totalWeight : ℚ :=
  (PICKUP_WEIGHTS.map Prod.snd).foldl (· + ·) 0

/-- The cumulative-subtraction loop of `GridManager.getRandomPickupType`:
`random -= weight; if (random <= 0) return type;` over the entries, with
the source's `'ball'` fallback when no entry triggers. -/
def pickupLoop : ℚ → List (PickupType × ℚ) → PickupType
  | _, [] => PickupType.ball
  | random, (t, w) :: rest =>
    if random - w ≤ 0 then t else pickupLoop (random - w) rest

/-- `GridManager.getRandomPickupType` with the uniform draw
`Math.random() * totalWeight` made an explicit input `u`. -/
def getRandomPickupType (u : ℚ) : PickupType :=
  pickupLoop u PICKUP_WEIGHTS

/-- `GridManager.createBrick`: a fresh brick starts with
`destroying: false, destroyProgress: 0`. -/
def createBrick (id gridX gridY hits : ℤ) : Brick :=
  ⟨id, gridX, gridY, hits, false, 0⟩

/-- The hit count `GridManager.spawnNewRow` gives a new brick:
`Math.max(1, baseHits + Math.floor(Math.random() * (variance*2+1)) - variance)`
with `variance = Math.floor(baseHits * BRICK_HIT_VARIANCE)`.  The random
integer `Math.floor(Math.random() * (variance*2+1))` is made the explicit
input `k`. -/
def spawnedBrickHits (baseHits k : ℤ) : ℤ :=
  let variance : ℤ := ⌊(baseHits : ℚ) * BRICK_HIT_VARIANCE⌋
  max 1 (baseHits + k - variance)

/-- `GridManager.checkGameOver`:
`bricks.some((brick) => brick.gridY >= GRID_ROWS)`. -/
def checkGameOver (bricks : List Brick) : Bool :=
  bricks.any (fun brick => GRID_ROWS ≤ brick.gridY)

/-- `GridManager.moveBricksDown` on one brick: `brick.gridY++`. -/
def moveBrickDown (brick : Brick) : Brick :=
  { brick with gridY := brick.gridY + 1 }

/-- `DESTROY_ANIMATION_DURATION`-scaled fade step of
`Game.updateDestroyingBricks` on one brick, with the per-frame increment
`deltaTime / (DESTROY_ANIMATION_DURATION / 1000)` abstracted as `inc`
(it only touches `destroyProgress`). -/
def updateDestroyingBrick (inc : ℚ) (brick : Brick) : Brick :=
  if brick.destroying = true then
    { brick with destroyProgress := brick.destroyProgress + inc }
  else brick

/-- The per-(ball, brick) brick update of `Game.updateAnimating` (lines
475-495): destroying bricks are skipped (`continue`); on a reported
collision `hits` is decremented and, when it drops to `≤ 0`, `destroying`
is set with `destroyProgress = 0`.  Whether `checkBrickCollision` reported
a collision is the explicit input `collided`. -/
def updateBrickOnCollision (collided : Bool) (brick : Brick) : Brick :=
  if brick.destroying = true then brick
  else if collided then
    let b := { brick with hits := brick.hits - 1 }
    if b.hits ≤ 0 then { b with destroying := true, destroyProgress := 0 }
    else b
  else brick

/-- The brick invariant of the spec's data model: a live brick has at
least one hit left, and a destroying brick is exactly at zero. -/
def BrickInv (brick : Brick) : Prop :=
  (brick.destroying = false → 1 ≤ brick.hits) ∧
  (brick.destroying = true → brick.hits = 0)

/-- Game state, from `src/types.ts` (`GameState`). -/
inductive GameState where
  | menu
  | aiming
  | launching
  | animating
  | paused
  | gameOver
  | settings
deriving DecidableEq, Repr

/-- The state-machine slice of the `Game` class: the `state` field plus
the single `previousState` slot used for modal return. -/
structure GameSM where
  state : GameState
  previousState : GameState
deriving DecidableEq, Repr

/-- The input events that drive the modal/menu state transitions, at the
granularity of which button region the event's position falls in (the
source tests `isPointInBounds` against disjoint button rectangles;
`pauseTap` is the sentinel tap at `(-1, -1)`). -/
inductive GameInput where
  | pauseTap
  | resumeClick
  | restartClick
  | pausedSettingsClick
  | settingsToggleClick
  | settingsBackClick
  | menuPlayClick
  | menuSettingsClick
deriving DecidableEq, Repr

/-- The state-transition slice of `Game.handleInput` and the per-state
handlers (`handleMenuInput`, `handleAimingInput` line 273-279,
`handleAnimatingInput` line 294-298, `handlePausedInput`,
`handleSettingsInput`): which `state`/`previousState` writes each input
performs.  `startGame` (reached from the menu play button and the paused
restart button) sets `state = 'aiming'` and does not touch
`previousState`.  Inputs not handled in a state leave it unchanged. -/
def applyInput (g : GameSM) (e : GameInput) : GameSM :=
  match g.state, e with
  | GameState.menu, GameInput.menuPlayClick => { g with state := GameState.aiming }
  | GameState.menu, GameInput.menuSettingsClick =>
      { state := GameState.settings, previousState := GameState.menu }
  | GameState.aiming, GameInput.pauseTap =>
      { state := GameState.paused, previousState := GameState.aiming }
  | GameState.animating, GameInput.pauseTap =>
      { state := GameState.paused, previousState := GameState.animating }
  | GameState.paused, GameInput.resumeClick => { g with state := g.previousState }
  | GameState.paused, GameInput.restartClick => { g with state := GameState.aiming }
  | GameState.paused, GameInput.pausedSettingsClick =>
      { state := GameState.settings, previousState := GameState.paused }
  | GameState.settings, GameInput.settingsToggleClick => g
  | GameState.settings, GameInput.settingsBackClick => { g with state := g.previousState }
  | _, _ => g

/-! ## C5: game-over trigger -/

/-- C5: `checkGameOver` returns `true` iff some brick's row index `gridY`
is at least `GRID_ROWS`, and returns `false` on the empty brick list. -/
theorem checkGameOver_iff_some_bottom (bricks : List Brick) :
    (checkGameOver bricks = true ↔ ∃ b ∈ bricks, GRID_ROWS ≤ b.gridY) ∧
    checkGameOver [] = false := by
  constructor
  · simp [checkGameOver, List.any_eq_true]
  · rfl

/-! ## C9: ball advance -/

/-- C9 counterexample: an inactive ball with nonzero velocity is returned
unchanged by `updateBall`, so its position is not
`position + velocity * dt * m` (which would move x to `0 + 1 * (1 * 1)`). -/
theorem updateBall_inactive_counterexample :
    (updateBall ⟨0, ⟨0, 0⟩, ⟨1, 0⟩, false⟩ 1 1).position.x = 0 ∧
    (0 : ℚ) ≠ 0 + 1 * (1 * 1) := by
  constructor
  · rfl
  · norm_num

/-- C9 (amended): for every active ball, `updateBall` advances the
position by `velocity * (deltaTime * speedMultiplier)` and changes
nothing else; an inactive ball is returned entirely unchanged. -/
theorem updateBall_advances_active (ball : Ball) (deltaTime speedMultiplier : ℚ) :
    (ball.active = true →
      updateBall ball deltaTime speedMultiplier =
        { ball with
          position := ⟨ball.position.x + ball.velocity.x * (deltaTime * speedMultiplier),
                       ball.position.y + ball.velocity.y * (deltaTime * speedMultiplier)⟩ }) ∧
    (ball.active = false → updateBall ball deltaTime speedMultiplier = ball) := by
  constructor <;> intro h <;> simp [updateBall, h]

/-- C9 witness: `updateBall` evaluated on a concrete active ball. -/
theorem updateBall_advances_active_witness :
    updateBall ⟨0, ⟨2, 3⟩, ⟨5, 7⟩, true⟩ 2 3 =
      ⟨0, ⟨2 + 5 * (2 * 3), 3 + 7 * (2 * 3)⟩, ⟨5, 7⟩, true⟩ :=
  (updateBall_advances_active ⟨0, ⟨2, 3⟩, ⟨5, 7⟩, true⟩ 2 3).1 rfl

/-! ## C8: pickup weighted sampling -/

/-- C8 counterexample: the configured `PICKUP_WEIGHTS` sum to `1`, not to
the README's documented `1.0 + 0.2 + 0.143 + 0.1 + 0.05 = 1.493`, and the
draw `1.01` (which under the documented weights falls in the x2 band
`[1.0, 1.2)`) yields the standard type. -/
theorem getRandomPickupType_weights_counterexample :
    totalWeight = 1 ∧ totalWeight ≠ 1493/1000 ∧
    getRandomPickupType (101/100) = PickupType.ball := by
  refine ⟨by norm_num [totalWeight, PICKUP_WEIGHTS], by norm_num [totalWeight, PICKUP_WEIGHTS], ?_⟩
  norm_num [getRandomPickupType, PICKUP_WEIGHTS, pickupLoop]

/-- C8 (amended): under the configured weights every draw value in
`[0, totalWeight)` selects the standard type, i.e. each type's selected
fraction is its configured weight over the total (`1/1` for `ball`, `0`
for every multiplier), not the README's 67%/13.4%/9.6%/6.7%/3.3% split. -/
theorem getRandomPickupType_in_range_ball (u : ℚ) (h0 : 0 ≤ u) (h1 : u < totalWeight) :
    getRandomPickupType u = PickupType.ball := by
  have ht : totalWeight = 1 := by norm_num [totalWeight, PICKUP_WEIGHTS]
  rw [ht] at h1
  show pickupLoop u PICKUP_WEIGHTS = PickupType.ball
  rw [PICKUP_WEIGHTS]
  simp only [pickupLoop]
  rw [if_pos (by linarith)]

/-- C8 witness: the draw `1/2` selects the standard type. -/
theorem getRandomPickupType_in_range_ball_witness :
    getRandomPickupType (1/2) = PickupType.ball :=
  getRandomPickupType_in_range_ball (1/2) (by norm_num)
    (by norm_num [totalWeight, PICKUP_WEIGHTS])

/-! ## C7: modal overlay return -/

/-- C7 counterexample: from `aiming`, entering `paused`, opening
`settings` from within `paused`, leaving settings with back, then
pressing resume leaves the game in `paused` — not in `aiming`, the state
the paused overlay was entered from (the single `previousState` slot was
overwritten when settings was opened). -/
theorem applyInput_nested_modal_counterexample :
    (applyInput (applyInput (applyInput (applyInput
        ⟨GameState.aiming, GameState.menu⟩ GameInput.pauseTap)
        GameInput.pausedSettingsClick) GameInput.settingsBackClick)
        GameInput.resumeClick).state = GameState.paused ∧
    GameState.paused ≠ GameState.aiming := by
  decide

/-- C7 (amended): a single non-nested overlay round trip does return to
the state the overlay was entered from (pause then resume from
`aiming`/`animating`; settings then back from `menu`; settings then back
from within `paused` returns to `paused`); but after the nested sequence
pause → settings → back, resume returns to `paused` itself rather than
the state `paused` was entered from. -/
theorem applyInput_modal_return (g : GameSM) :
    ((g.state = GameState.aiming ∨ g.state = GameState.animating) →
      (applyInput (applyInput g GameInput.pauseTap) GameInput.resumeClick).state = g.state) ∧
    (g.state = GameState.menu →
      (applyInput (applyInput g GameInput.menuSettingsClick)
        GameInput.settingsBackClick).state = g.state) ∧
    (g.state = GameState.paused →
      (applyInput (applyInput g GameInput.pausedSettingsClick)
        GameInput.settingsBackClick).state = GameState.paused) ∧
    ((g.state = GameState.aiming ∨ g.state = GameState.animating) →
      (applyInput (applyInput (applyInput (applyInput g GameInput.pauseTap)
        GameInput.pausedSettingsClick) GameInput.settingsBackClick)
        GameInput.resumeClick).state = GameState.paused) := by
  obtain ⟨s, p⟩ := g
  cases s <;> cases p <;> decide

/-- C7 witness: the pause/resume round trip from `aiming`. -/
theorem applyInput_modal_return_witness :
    (applyInput (applyInput ⟨GameState.aiming, GameState.menu⟩ GameInput.pauseTap)
      GameInput.resumeClick).state = GameState.aiming :=
  (applyInput_modal_return ⟨GameState.aiming, GameState.menu⟩).1 (Or.inl rfl)

/-! ## C6: brick hit-count invariant -/

/-- C6: the brick invariant — a live brick has `hits ≥ 1`, a destroying
brick has `hits = 0` (so `hits` never goes below 0) — holds for every
spawned brick (the `max(1, ...)` clamp) and is preserved by the per-frame
collision update (which skips destroying bricks and sets `destroying`
exactly when the decrement reaches 0), by the row advance, and by the
destroy-fade update. -/
theorem brickInv_spawn_and_preserved (id gridX gridY baseHits k : ℤ)
    (collided : Bool) (inc : ℚ) (brick : Brick) :
    BrickInv (createBrick id gridX gridY (spawnedBrickHits baseHits k)) ∧
    (BrickInv brick → BrickInv (updateBrickOnCollision collided brick)) ∧
    (BrickInv brick → BrickInv (moveBrickDown brick)) ∧
    (BrickInv brick → BrickInv (updateDestroyingBrick inc brick)) ∧
    (BrickInv brick → 0 ≤ brick.hits) := by
  obtain ⟨bid, bgx, bgy, bhits, bdes, bprog⟩ := brick
  refine ⟨?_, ?_, ?_, ?_, ?_⟩
  · constructor
    · intro _
      exact le_max_left _ _
    · intro h
      exact absurd h Bool.false_ne_true
  · intro hinv
    obtain ⟨hlive, hdead⟩ := hinv
    cases bdes
    · have h1 : (1:ℤ) ≤ bhits := hlive rfl
      cases collided
      · exact ⟨fun _ => h1, fun h => absurd h Bool.false_ne_true⟩
      · by_cases hle : bhits - 1 ≤ 0
        · have hh : updateBrickOnCollision true ⟨bid, bgx, bgy, bhits, false, bprog⟩ =
              ⟨bid, bgx, bgy, bhits - 1, true, 0⟩ := by
            simp [updateBrickOnCollision, hle]
          rw [hh]
          exact ⟨fun h => absurd h (by simp), fun _ => by show bhits - 1 = 0; omega⟩
        · have hh : updateBrickOnCollision true ⟨bid, bgx, bgy, bhits, false, bprog⟩ =
              ⟨bid, bgx, bgy, bhits - 1, false, bprog⟩ := by
            simp [updateBrickOnCollision, hle]
          rw [hh]
          exact ⟨fun _ => by show (1:ℤ) ≤ bhits - 1; omega,
                 fun h => absurd h Bool.false_ne_true⟩
    · exact ⟨hlive, hdead⟩
  · intro hinv
    obtain ⟨hlive, hdead⟩ := hinv
    exact ⟨hlive, hdead⟩
  · intro hinv
    obtain ⟨hlive, hdead⟩ := hinv
    cases bdes
    · exact ⟨hlive, hdead⟩
    · exact ⟨fun h => absurd h (by simp [updateDestroyingBrick]),
             fun _ => hdead rfl⟩
  · intro hinv
    obtain ⟨hlive, hdead⟩ := hinv
    show (0:ℤ) ≤ bhits
    cases bdes
    · have h1 : (1:ℤ) ≤ bhits := hlive rfl
      omega
    · have h1 : bhits = 0 := hdead rfl
      omega

/-- C6 witness: a concrete spawned brick and one collision step on it. -/
theorem brickInv_spawn_and_preserved_witness :
    BrickInv (createBrick 0 3 0 (spawnedBrickHits 1 0)) ∧
    BrickInv (updateBrickOnCollision true (createBrick 0 3 0 1)) := by
  have h1 := (brickInv_spawn_and_preserved 0 3 0 1 0 true 0 (createBrick 0 3 0 1)).1
  have h2 := (brickInv_spawn_and_preserved 0 3 0 1 0 true 0 (createBrick 0 3 0 1)).2.1
  refine ⟨h1, h2 ?_⟩
  exact ⟨fun _ => le_refl 1, fun h => by simp [createBrick] at h⟩

/-! ## C1: elastic wall reflection -/

/-- C1 counterexample: the ball at `(4, 4)` with velocity `(1, -1)` and
radius 8 in a 300-wide play area strikes the top wall (`y - r ≤ 0` with
`vy < 0`), yet `checkWallCollision` handles the left wall first and
returns with `y` unclamped (4, not 8) and `vy` unchanged (-1, not 1). -/
theorem checkWallCollision_corner_counterexample :
    ((4:ℚ) - 8 ≤ 0 ∧ (-1:ℚ) < 0) ∧
    (checkWallCollision 300 8 ⟨0, ⟨4, 4⟩, ⟨1, -1⟩, true⟩).2 = some WallSide.left ∧
    (checkWallCollision 300 8 ⟨0, ⟨4, 4⟩, ⟨1, -1⟩, true⟩).1.position.y = 4 ∧
    (checkWallCollision 300 8 ⟨0, ⟨4, 4⟩, ⟨1, -1⟩, true⟩).1.velocity.y = -1 ∧
    ((4:ℚ) ≠ 8 ∧ (-1:ℚ) ≠ -(-1:ℚ)) := by
  refine ⟨by norm_num, ?_, ?_, ?_, by norm_num⟩ <;>
    norm_num [checkWallCollision]

/-- C1 (amended): for a ball that strikes the left, right or top wall with
its velocity pointing into that wall — and, for the right and top walls,
does not simultaneously overlap a wall checked earlier (left before
right before top) — `checkWallCollision` clamps the position to that
boundary, negates exactly the perpendicular velocity component, leaves
the parallel component unchanged, and preserves the squared speed
(stated in the last conjunct for every call unconditionally). -/
theorem checkWallCollision_elastic (gameWidth ballRadius : ℚ) (ball : Ball) :
    (ball.position.x - ballRadius ≤ 0 → ball.velocity.x < 0 →
      checkWallCollision gameWidth ballRadius ball =
        ({ ball with position := ⟨ballRadius, ball.position.y⟩,
                     velocity := ⟨-ball.velocity.x, ball.velocity.y⟩ },
         some WallSide.left)) ∧
    (¬(ball.position.x - ballRadius ≤ 0) → gameWidth ≤ ball.position.x + ballRadius →
      0 < ball.velocity.x →
      checkWallCollision gameWidth ballRadius ball =
        ({ ball with position := ⟨gameWidth - ballRadius, ball.position.y⟩,
                     velocity := ⟨-ball.velocity.x, ball.velocity.y⟩ },
         some WallSide.right)) ∧
    (¬(ball.position.x - ballRadius ≤ 0) → ¬(gameWidth ≤ ball.position.x + ballRadius) →
      ball.position.y - ballRadius ≤ 0 → ball.velocity.y < 0 →
      checkWallCollision gameWidth ballRadius ball =
        ({ ball with position := ⟨ball.position.x, ballRadius⟩,
                     velocity := ⟨ball.velocity.x, -ball.velocity.y⟩ },
         some WallSide.top)) ∧
    ((checkWallCollision gameWidth ballRadius ball).1.velocity.x^2 +
      (checkWallCollision gameWidth ballRadius ball).1.velocity.y^2 =
      ball.velocity.x^2 + ball.velocity.y^2) := by
  refine ⟨?_, ?_, ?_, ?_⟩
  · intro h1 hv
    simp only [checkWallCollision, if_pos h1]
    rw [abs_of_neg hv]
  · intro h1 h2 hv
    simp only [checkWallCollision, if_neg h1, if_pos h2]
    rw [abs_of_pos hv]
  · intro h1 h2 h3 hv
    simp only [checkWallCollision, if_neg h1, if_neg h2, if_pos h3]
    rw [abs_of_neg hv]
  · simp only [checkWallCollision]
    split
    · simp [sq_abs]
    · split
      · simp [sq_abs]
      · split
        · simp [sq_abs]
        · rfl

/-- C1 witness: a concrete left-wall bounce with inward velocity. -/
theorem checkWallCollision_elastic_witness :
    checkWallCollision 300 8 ⟨0, ⟨5, 50⟩, ⟨-2, 3⟩, true⟩ =
      (⟨0, ⟨8, 50⟩, ⟨2, 3⟩, true⟩, some WallSide.left) := by
  have h := (checkWallCollision_elastic 300 8 ⟨0, ⟨5, 50⟩, ⟨-2, 3⟩, true⟩).1
    (by norm_num) (by norm_num)
  simpa using h

/-! ## C4: corner-bounce scenario -/

/-- C4: a ball just outside a brick's top-left corner (centre left of and
above the unexpanded rectangle, within squared distance `64 = 8²` of the
corner), moving diagonally into the brick at 45° with velocity `(v, v)`,
`v > 0`, radius 8: `checkBrickCollision` reports a corner hit and negates
both velocity components.  `sq` is assumed correct at the one squared
distance the source takes `Math.sqrt` of. -/
theorem checkBrickCollision_corner45 (sq : ℚ → ℚ) (ball : Ball) (bounds : BrickBounds)
    (v : ℚ)
    (hwfx : bounds.left ≤ bounds.right) (hwfy : bounds.top ≤ bounds.bottom)
    (hx : ball.position.x < bounds.left) (hy : ball.position.y < bounds.top)
    (hvel : ball.velocity = ⟨v, v⟩) (hv : 0 < v)
    (hd2 : cornerDist2 bounds ball.position.x ball.position.y ≤ 64)
    (hs0 : 0 ≤ sq (cornerDist2 bounds ball.position.x ball.position.y))
    (hs2 : (sq (cornerDist2 bounds ball.position.x ball.position.y))^2 =
      cornerDist2 bounds ball.position.x ball.position.y) :
    (checkBrickCollision sq 8 ball bounds).2 = some Face.corner ∧
    (checkBrickCollision sq 8 ball bounds).1.velocity = ⟨-v, -v⟩ := by
  have hd2' : cornerDist2 bounds ball.position.x ball.position.y =
      (ball.position.x - bounds.left)^2 + (ball.position.y - bounds.top)^2 := by
    unfold cornerDist2 cornerXOf cornerYOf
    rw [if_pos hx, if_pos hy]
  have hdx2 : (ball.position.x - bounds.left)^2 ≤ 64 := by
    nlinarith [sq_nonneg (ball.position.y - bounds.top), hd2, hd2'.symm.trans_le hd2]
  have hdy2 : (ball.position.y - bounds.top)^2 ≤ 64 := by
    nlinarith [sq_nonneg (ball.position.x - bounds.left), hd2, hd2'.symm.trans_le hd2]
  have hxlo : bounds.left - 8 ≤ ball.position.x := by nlinarith
  have hylo : bounds.top - 8 ≤ ball.position.y := by nlinarith
  have hout : ¬(ball.position.x < bounds.left - 8 ∨ ball.position.x > bounds.right + 8 ∨
      ball.position.y < bounds.top - 8 ∨ ball.position.y > bounds.bottom + 8) := by
    push_neg
    exact ⟨by linarith, by linarith, by linarith, by linarith⟩
  have hguard : sq (cornerDist2 bounds ball.position.x ball.position.y) ≤ 8 := by
    nlinarith [hs0, hs2, hd2]
  have hcorner : (ball.position.x < bounds.left ∨ ball.position.x > bounds.right) ∧
      (ball.position.y < bounds.top ∨ ball.position.y > bounds.bottom) :=
    ⟨Or.inl hx, Or.inl hy⟩
  simp only [checkBrickCollision]
  rw [if_neg hout, if_pos hcorner, if_pos hguard]
  exact ⟨rfl, by rw [hvel]⟩

/-- C4 witness: concrete corner hit at squared distance 25 (`(-3, -4)`
offset), with the oracle returning 5 there. -/
theorem checkBrickCollision_corner45_witness :
    (checkBrickCollision (fun q => if q = 25 then 5 else 0) 8
      ⟨0, ⟨97, 96⟩, ⟨3, 3⟩, true⟩ ⟨100, 120, 100, 130⟩).2 = some Face.corner ∧
    (checkBrickCollision (fun q => if q = 25 then 5 else 0) 8
      ⟨0, ⟨97, 96⟩, ⟨3, 3⟩, true⟩ ⟨100, 120, 100, 130⟩).1.velocity = ⟨-3, -3⟩ := by
  have hc : cornerDist2 ⟨100, 120, 100, 130⟩ (97:ℚ) 96 = 25 := by
    norm_num [cornerDist2, cornerXOf, cornerYOf]
  refine checkBrickCollision_corner45 (fun q => if q = 25 then 5 else 0)
    ⟨0, ⟨97, 96⟩, ⟨3, 3⟩, true⟩ ⟨100, 120, 100, 130⟩ 3
    (by norm_num) (by norm_num) (by norm_num) (by norm_num) rfl (by norm_num)
    (by rw [hc]; norm_num) (by rw [hc]; norm_num) (by rw [hc]; norm_num)

/-! ## C10: degenerate raycast from inside a brick -/

/-- For a ray parallel to neither slab boundary, an origin strictly
between the two planes gives a negative near parameter and a positive far
parameter. -/
lemma slab_cross (a b o d : ℚ) (ha : a < o) (hb : o < b) (hd : d ≠ 0) :
    min ((a - o) / d) ((b - o) / d) < 0 ∧ 0 < max ((a - o) / d) ((b - o) / d) := by
  rcases lt_or_gt_of_ne hd with h | h
  · constructor
    · exact lt_of_le_of_lt (min_le_right _ _) (div_neg_of_pos_of_neg (by linarith) h)
    · exact lt_of_lt_of_le (div_pos_of_neg_of_neg (by linarith) h) (le_max_left _ _)
  · constructor
    · exact lt_of_le_of_lt (min_le_left _ _) (div_neg_of_neg_of_pos (by linarith) h)
    · exact lt_of_lt_of_le (div_pos (by linarith) h) (le_max_right _ _)

/-- Shared core of C10: from an origin strictly inside the
radius-expanded bounds, `raycastBrick` returns the degenerate hit at the
origin itself, with distance 0 and the zero normal, for every direction
(zero vector included) and every oracle. -/
lemma raycastBrick_inside_eq (sq : ℚ → ℚ) (ballRadius : ℚ) (origin direction : Vector2)
    (bounds : BrickBounds)
    (h1 : bounds.left - ballRadius < origin.x) (h2 : origin.x < bounds.right + ballRadius)
    (h3 : bounds.top - ballRadius < origin.y) (h4 : origin.y < bounds.bottom + ballRadius) :
    raycastBrick sq ballRadius origin direction bounds = some ⟨origin, ⟨0, 0⟩, 0⟩ := by
  have hn1 : ¬(origin.x < bounds.left - ballRadius) := by linarith
  have hn2 : ¬(origin.x > bounds.right + ballRadius) := by linarith
  have hn3 : ¬(origin.y < bounds.top - ballRadius) := by linarith
  have hn4 : ¬(origin.y > bounds.bottom + ballRadius) := by linarith
  by_cases hdx : direction.x = 0
  · by_cases hdy : direction.y = 0
    · simp [raycastBrick, hdx, hdy, hn1, hn2, hn3, hn4]
    · have hy := slab_cross (bounds.top - ballRadius) (bounds.bottom + ballRadius)
        origin.y direction.y h3 h4 hdy
      have hymin : ¬(min ((bounds.top - ballRadius - origin.y) / direction.y)
          ((bounds.bottom + ballRadius - origin.y) / direction.y) > 0) :=
        not_lt.mpr hy.1.le
      have hyfar : ¬((0:ℚ) > max ((bounds.top - ballRadius - origin.y) / direction.y)
          ((bounds.bottom + ballRadius - origin.y) / direction.y) ∨ (0:ℚ) < 0) := by
        push_neg
        exact ⟨hy.2.le, le_refl 0⟩
      simp [raycastBrick, hdx, hdy, hn1, hn2, hymin, hyfar]
      intro h
      rcases lt_sup_iff.mp hy.2 with h' | h'
      · linarith
      · linarith
  · have hxs := slab_cross (bounds.left - ballRadius) (bounds.right + ballRadius)
      origin.x direction.x h1 h2 hdx
    have hxmin : ¬(min ((bounds.left - ballRadius - origin.x) / direction.x)
        ((bounds.right + ballRadius - origin.x) / direction.x) > 0) :=
      not_lt.mpr hxs.1.le
    by_cases hdy : direction.y = 0
    · have hxfar : ¬((0:ℚ) > max ((bounds.left - ballRadius - origin.x) / direction.x)
          ((bounds.right + ballRadius - origin.x) / direction.x) ∨ (0:ℚ) < 0) := by
        push_neg
        exact ⟨hxs.2.le, le_refl 0⟩
      simp [raycastBrick, hdx, hdy, hn3, hn4, hxmin, hxfar]
      intro h
      rcases lt_sup_iff.mp hxs.2 with h' | h'
      · linarith
      · linarith
    · have hy := slab_cross (bounds.top - ballRadius) (bounds.bottom + ballRadius)
        origin.y direction.y h3 h4 hdy
      have hymin : ¬(min ((bounds.top - ballRadius - origin.y) / direction.y)
          ((bounds.bottom + ballRadius - origin.y) / direction.y) > 0) :=
        not_lt.mpr hy.1.le
      have hfar : ¬((0:ℚ) > min
          (max ((bounds.left - ballRadius - origin.x) / direction.x)
            ((bounds.right + ballRadius - origin.x) / direction.x))
          (max ((bounds.top - ballRadius - origin.y) / direction.y)
            ((bounds.bottom + ballRadius - origin.y) / direction.y)) ∨ (0:ℚ) < 0) := by
        push_neg
        exact ⟨le_min hxs.2.le hy.2.le, le_refl 0⟩
      simp [raycastBrick, hdx, hdy, hxmin, hymin, hfar]
      constructor
      · intro h
        rcases lt_sup_iff.mp hxs.2 with h' | h'
        · linarith
        · linarith
      · intro h
        rcases lt_sup_iff.mp hy.2 with h' | h'
        · linarith
        · linarith

/-- C10: from an origin strictly inside a brick's radius-expanded bounds,
`raycastBrick` returns a hit whose point is the origin itself with
distance 0 and the zero normal, for every direction including the zero
vector; and the trajectory loop's brick scan discards exactly this hit
(its distance is not above the `0.1` threshold), so such a brick never
becomes `closestHit` and its zero normal is never reflected about. -/
theorem raycastBrick_inside_degenerate (sq : ℚ → ℚ) (ballRadius : ℚ)
    (origin direction : Vector2) (bounds : BrickBounds)
    (h1 : bounds.left - ballRadius < origin.x) (h2 : origin.x < bounds.right + ballRadius)
    (h3 : bounds.top - ballRadius < origin.y) (h4 : origin.y < bounds.bottom + ballRadius) :
    raycastBrick sq ballRadius origin direction bounds = some ⟨origin, ⟨0, 0⟩, 0⟩ ∧
    (∀ (p : TrajParams) (brick : Brick) (acc : Option Hit),
      p.ballRadius = ballRadius →
      getBrickBounds brick p.cellWidth p.cellHeight p.gridOffsetX p.gridOffsetY p.gap =
        bounds →
      foldBrickHits sq p [brick] origin direction acc = acc) := by
  refine ⟨raycastBrick_inside_eq sq ballRadius origin direction bounds h1 h2 h3 h4,
    fun p brick acc hpr hpb => ?_⟩
  unfold foldBrickHits
  simp only [List.foldl]
  rw [hpr, hpb, raycastBrick_inside_eq sq ballRadius origin direction bounds h1 h2 h3 h4]
  split
  · rfl
  · norm_num

/-- C10 witness: concrete origin inside a concrete brick's expanded
bounds, with the zero direction. -/
theorem raycastBrick_inside_degenerate_witness :
    raycastBrick (fun _ => 0) 8 ⟨105, 110⟩ ⟨0, 0⟩ ⟨100, 120, 100, 130⟩ =
      some ⟨⟨105, 110⟩, ⟨0, 0⟩, 0⟩ := by
  exact (raycastBrick_inside_degenerate (fun _ => 0) 8 ⟨105, 110⟩ ⟨0, 0⟩
    ⟨100, 120, 100, 130⟩ (by norm_num) (by norm_num) (by norm_num) (by norm_num)).1

/-! ## C3: no immediate re-collision after a brick hit -/

/-- A ball whose centre lies outside the radius-expanded bounds is
reported collision-free by `checkBrickCollision`. -/
lemma checkBrickCollision_out_none (sq : ℚ → ℚ) (r : ℚ) (ball : Ball)
    (bounds : BrickBounds)
    (h : ball.position.x < bounds.left - r ∨ ball.position.x > bounds.right + r ∨
      ball.position.y < bounds.top - r ∨ ball.position.y > bounds.bottom + r) :
    (checkBrickCollision sq r ball bounds).2 = none := by
  simp only [checkBrickCollision]
  rw [if_pos h]

/-- A ball in the corner region whose distance-to-corner square root
evaluates to `r + 1` is reported collision-free (the corner test
`distToCorner ≤ r` fails). -/
lemma checkBrickCollision_corner_guard_none (sq : ℚ → ℚ) (r : ℚ) (ball : Ball)
    (bounds : BrickBounds) (hr : 0 < r)
    (hx : ball.position.x < bounds.left ∨ ball.position.x > bounds.right)
    (hy : ball.position.y < bounds.top ∨ ball.position.y > bounds.bottom)
    (hs : sq (cornerDist2 bounds ball.position.x ball.position.y) = r + 1) :
    (checkBrickCollision sq r ball bounds).2 = none := by
  by_cases hout : ball.position.x < bounds.left - r ∨ ball.position.x > bounds.right + r ∨
      ball.position.y < bounds.top - r ∨ ball.position.y > bounds.bottom + r
  · exact checkBrickCollision_out_none sq r ball bounds hout
  · simp only [checkBrickCollision]
    rw [if_neg hout, if_pos ⟨hx, hy⟩, if_neg (by rw [hs]; linarith)]

/-- Pushing away from a corner coordinate strictly keeps the strict side
(towards smaller values). -/
lemma push_lt (o c dist r : ℚ) (h : o < c) (hdist : 0 < dist) (hr : 0 < r) :
    c + (o - c) / dist * (r + 1) < c := by
  have h1 : (o - c) / dist < 0 := div_neg_of_neg_of_pos (by linarith) hdist
  nlinarith

/-- Pushing away from a corner coordinate strictly keeps the strict side
(towards larger values). -/
lemma push_gt (o c dist r : ℚ) (h : c < o) (hdist : 0 < dist) (hr : 0 < r) :
    c < c + (o - c) / dist * (r + 1) := by
  have h1 : 0 < (o - c) / dist := div_pos (by linarith) hdist
  nlinarith

/-- Since the push factor `(r+1)/dist` exceeds 1 whenever the corner test
passed (`dist ≤ r`), the pushed coordinate moves no closer to the corner
(larger side). -/
lemma push_ge (o c dist r : ℚ) (h : c < o) (hdist : 0 < dist) (hdr : dist ≤ r) :
    o ≤ c + (o - c) / dist * (r + 1) := by
  have h2 : (o - c) ≤ (o - c) * (r + 1) / dist := by
    rw [le_div_iff hdist]
    nlinarith [mul_nonneg (sub_nonneg.mpr h.le) (sub_nonneg.mpr (hdr.trans (le_of_lt (lt_add_one r))))]
  have h3 : (o - c) * (r + 1) / dist = (o - c) / dist * (r + 1) := by ring
  linarith [h3 ▸ h2]

/-- Mirror of `push_ge` on the smaller side. -/
lemma push_le (o c dist r : ℚ) (h : o < c) (hdist : 0 < dist) (hdr : dist ≤ r) :
    c + (o - c) / dist * (r + 1) ≤ o := by
  have h2 : (o - c) * (r + 1) / dist ≤ (o - c) := by
    rw [div_le_iff hdist]
    nlinarith [mul_nonneg (sub_nonneg.mpr h.le) (sub_nonneg.mpr (hdr.trans (le_of_lt (lt_add_one r))))]
  have h3 : (o - c) * (r + 1) / dist = (o - c) / dist * (r + 1) := by ring
  linarith [h3 ▸ h2]

/-- The pushed position sits at squared distance `(r+1)²` from the corner
it was pushed out of. -/
lemma push_dist2 (ox oy cx cy dist r : ℚ) (hdist : dist ≠ 0)
    (hd2 : dist^2 = (ox - cx)^2 + (oy - cy)^2) :
    (cx + (ox - cx) / dist * (r + 1) - cx)^2 + (cy + (oy - cy) / dist * (r + 1) - cy)^2 =
      (r + 1)^2 := by
  field_simp
  linear_combination (-(r + 1)^2) * hd2

/-- Core of the corner case of C3: calling `checkBrickCollision` again on
the corner-pushed ball reports no collision. -/
lemma corner_push_second_none (sq : ℚ → ℚ) (r D : ℚ) (ball : Ball) (bounds : BrickBounds)
    (hD : 0 < D)
    (hD2 : D^2 = cornerDist2 bounds ball.position.x ball.position.y)
    (hs3 : sq ((r + 1)^2) = r + 1)
    (hcx : ball.position.x < bounds.left ∨ ball.position.x > bounds.right)
    (hcy : ball.position.y < bounds.top ∨ ball.position.y > bounds.bottom)
    (hDr : D ≤ r) :
    (checkBrickCollision sq r
      { ball with
          velocity := ⟨-ball.velocity.x, -ball.velocity.y⟩,
          position := ⟨cornerXOf bounds ball.position.x +
              (ball.position.x - cornerXOf bounds ball.position.x) / D * (r + 1),
            cornerYOf bounds ball.position.y +
              (ball.position.y - cornerYOf bounds ball.position.y) / D * (r + 1)⟩ }
      bounds).2 = none := by
  have hr : 0 < r := lt_of_lt_of_le hD hDr
  have hxfacts : (cornerXOf bounds ball.position.x +
        (ball.position.x - cornerXOf bounds ball.position.x) / D * (r + 1) < bounds.left ∨
      cornerXOf bounds ball.position.x +
        (ball.position.x - cornerXOf bounds ball.position.x) / D * (r + 1) > bounds.right) ∧
      cornerXOf bounds (cornerXOf bounds ball.position.x +
        (ball.position.x - cornerXOf bounds ball.position.x) / D * (r + 1)) =
        cornerXOf bounds ball.position.x := by
    by_cases hbl : ball.position.x < bounds.left
    · have hcxv : cornerXOf bounds ball.position.x = bounds.left := by
        unfold cornerXOf
        rw [if_pos hbl]
      have hlt : cornerXOf bounds ball.position.x +
          (ball.position.x - cornerXOf bounds ball.position.x) / D * (r + 1) < bounds.left := by
        rw [hcxv]
        exact push_lt _ _ _ _ hbl hD hr
      refine ⟨Or.inl hlt, ?_⟩
      rw [hcxv]
      unfold cornerXOf
      rw [if_pos (hcxv ▸ hlt)]
    · have hgt : bounds.right < ball.position.x := (hcx.resolve_left hbl)
      have hcxv : cornerXOf bounds ball.position.x = bounds.right := by
        unfold cornerXOf
        rw [if_neg hbl]
      have hgt2 : bounds.right < cornerXOf bounds ball.position.x +
          (ball.position.x - cornerXOf bounds ball.position.x) / D * (r + 1) := by
        rw [hcxv]
        exact push_gt _ _ _ _ hgt hD hr
      have hge : ball.position.x ≤ cornerXOf bounds ball.position.x +
          (ball.position.x - cornerXOf bounds ball.position.x) / D * (r + 1) := by
        rw [hcxv]
        exact push_ge _ _ _ _ hgt hD hDr
      have hnl : ¬(cornerXOf bounds ball.position.x +
          (ball.position.x - cornerXOf bounds ball.position.x) / D * (r + 1) < bounds.left) := by
        have := not_lt.mp hbl
        linarith
      refine ⟨Or.inr hgt2, ?_⟩
      rw [hcxv]
      unfold cornerXOf
      rw [if_neg (hcxv ▸ hnl)]
  have hyfacts : (cornerYOf bounds ball.position.y +
        (ball.position.y - cornerYOf bounds ball.position.y) / D * (r + 1) < bounds.top ∨
      cornerYOf bounds ball.position.y +
        (ball.position.y - cornerYOf bounds ball.position.y) / D * (r + 1) > bounds.bottom) ∧
      cornerYOf bounds (cornerYOf bounds ball.position.y +
        (ball.position.y - cornerYOf bounds ball.position.y) / D * (r + 1)) =
        cornerYOf bounds ball.position.y := by
    by_cases hbt : ball.position.y < bounds.top
    · have hcyv : cornerYOf bounds ball.position.y = bounds.top := by
        unfold cornerYOf
        rw [if_pos hbt]
      have hlt : cornerYOf bounds ball.position.y +
          (ball.position.y - cornerYOf bounds ball.position.y) / D * (r + 1) < bounds.top := by
        rw [hcyv]
        exact push_lt _ _ _ _ hbt hD hr
      refine ⟨Or.inl hlt, ?_⟩
      rw [hcyv]
      unfold cornerYOf
      rw [if_pos (hcyv ▸ hlt)]
    · have hgt : bounds.bottom < ball.position.y := (hcy.resolve_left hbt)
      have hcyv : cornerYOf bounds ball.position.y = bounds.bottom := by
        unfold cornerYOf
        rw [if_neg hbt]
      have hgt2 : bounds.bottom < cornerYOf bounds ball.position.y +
          (ball.position.y - cornerYOf bounds ball.position.y) / D * (r + 1) := by
        rw [hcyv]
        exact push_gt _ _ _ _ hgt hD hr
      have hge : ball.position.y ≤ cornerYOf bounds ball.position.y +
          (ball.position.y - cornerYOf bounds ball.position.y) / D * (r + 1) := by
        rw [hcyv]
        exact push_ge _ _ _ _ hgt hD hDr
      have hnl : ¬(cornerYOf bounds ball.position.y +
          (ball.position.y - cornerYOf bounds ball.position.y) / D * (r + 1) < bounds.top) := by
        have := not_lt.mp hbt
        linarith
      refine ⟨Or.inr hgt2, ?_⟩
      rw [hcyv]
      unfold cornerYOf
      rw [if_neg (hcyv ▸ hnl)]
  have harg : cornerDist2 bounds
      (cornerXOf bounds ball.position.x +
        (ball.position.x - cornerXOf bounds ball.position.x) / D * (r + 1))
      (cornerYOf bounds ball.position.y +
        (ball.position.y - cornerYOf bounds ball.position.y) / D * (r + 1)) = (r + 1)^2 := by
    unfold cornerDist2
    rw [hxfacts.2, hyfacts.2]
    refine push_dist2 ball.position.x ball.position.y
      (cornerXOf bounds ball.position.x) (cornerYOf bounds ball.position.y) D r
      (ne_of_gt hD) ?_
    rw [hD2]
    unfold cornerDist2
    rfl
  exact checkBrickCollision_corner_guard_none sq r _ bounds hr hxfacts.1 hyfacts.1
    (by rw [show cornerDist2 bounds _ _ = (r+1)^2 from harg, hs3])

/-- C3 counterexample: for the ball at `(97, 96)` hitting the corner of
the brick `[100,120] × [100,130]` with radius 8 (corner distance 5), the
push to distance `r + 1 = 9` from the corner leaves the resulting centre
`(94.6, 92.8)` strictly inside the radius-expanded bounds
`[92,128] × [92,138]` — the claim's "resulting position lies outside the
radius-expanded brick bounds" fails for corner hits. -/
theorem checkBrickCollision_corner_inside_counterexample :
    (checkBrickCollision (fun q => if q = 25 then 5 else if q = 81 then 9 else 0) 8
      ⟨0, ⟨97, 96⟩, ⟨1, 1⟩, true⟩ ⟨100, 120, 100, 130⟩).2 = some Face.corner ∧
    ¬((checkBrickCollision (fun q => if q = 25 then 5 else if q = 81 then 9 else 0) 8
        ⟨0, ⟨97, 96⟩, ⟨1, 1⟩, true⟩ ⟨100, 120, 100, 130⟩).1.position.x < 100 - 8 ∨
      (checkBrickCollision (fun q => if q = 25 then 5 else if q = 81 then 9 else 0) 8
        ⟨0, ⟨97, 96⟩, ⟨1, 1⟩, true⟩ ⟨100, 120, 100, 130⟩).1.position.x > 120 + 8 ∨
      (checkBrickCollision (fun q => if q = 25 then 5 else if q = 81 then 9 else 0) 8
        ⟨0, ⟨97, 96⟩, ⟨1, 1⟩, true⟩ ⟨100, 120, 100, 130⟩).1.position.y < 100 - 8 ∨
      (checkBrickCollision (fun q => if q = 25 then 5 else if q = 81 then 9 else 0) 8
        ⟨0, ⟨97, 96⟩, ⟨1, 1⟩, true⟩ ⟨100, 120, 100, 130⟩).1.position.y > 130 + 8) := by
  have hres : checkBrickCollision (fun q => if q = 25 then 5 else if q = 81 then 9 else 0) 8
      ⟨0, ⟨97, 96⟩, ⟨1, 1⟩, true⟩ ⟨100, 120, 100, 130⟩ =
      (⟨0, ⟨473/5, 464/5⟩, ⟨-1, -1⟩, true⟩, some Face.corner) := by
    norm_num [checkBrickCollision, cornerXOf, cornerYOf, cornerDist2]
  rw [hres]
  norm_num

/-- C3 (amended): whenever `checkBrickCollision` reports a collision, an
immediate second call with the resulting ball and the same bounds reports
no collision — face hits because the ball is pushed past the expanded
boundary by a 1-unit epsilon (outside the expanded bounds, last
conjunct), corner hits because the ball sits at distance `r + 1 > r` from
the selected corner (though possibly still inside the expanded bounds) —
so one continuous overlap decrements `hits` exactly once.  The oracle
hypotheses state `Math.sqrt` correctness at the two values the source
computes roots of. -/
theorem checkBrickCollision_no_immediate_recollision (sq : ℚ → ℚ) (r : ℚ)
    (ball ball' : Ball) (bounds : BrickBounds) (face : Face)
    (hs1 : 0 < sq (cornerDist2 bounds ball.position.x ball.position.y))
    (hs2 : (sq (cornerDist2 bounds ball.position.x ball.position.y))^2 =
      cornerDist2 bounds ball.position.x ball.position.y)
    (hs3 : sq ((r + 1)^2) = r + 1)
    (hcol : checkBrickCollision sq r ball bounds = (ball', some face)) :
    (checkBrickCollision sq r ball' bounds).2 = none ∧
    (face ≠ Face.corner →
      (ball'.position.x < bounds.left - r ∨ ball'.position.x > bounds.right + r ∨
       ball'.position.y < bounds.top - r ∨ ball'.position.y > bounds.bottom + r)) := by
  simp only [checkBrickCollision] at hcol
  by_cases hout : ball.position.x < bounds.left - r ∨ ball.position.x > bounds.right + r ∨
      ball.position.y < bounds.top - r ∨ ball.position.y > bounds.bottom + r
  · rw [if_pos hout] at hcol
    exact absurd (congrArg Prod.snd hcol) (by simp)
  · rw [if_neg hout] at hcol
    by_cases hcr : (ball.position.x < bounds.left ∨ ball.position.x > bounds.right) ∧
        (ball.position.y < bounds.top ∨ ball.position.y > bounds.bottom)
    · rw [if_pos hcr] at hcol
      by_cases hguard : sq (cornerDist2 bounds ball.position.x ball.position.y) ≤ r
      · rw [if_pos hguard] at hcol
        injection hcol with hb hf
        injection hf with hf
        subst hb
        subst hf
        refine ⟨?_, fun hne => absurd rfl hne⟩
        exact corner_push_second_none sq r
          (sq (cornerDist2 bounds ball.position.x ball.position.y)) ball bounds
          hs1 hs2 hs3 hcr.1 hcr.2 hguard
      · rw [if_neg hguard] at hcol
        exact absurd (congrArg Prod.snd hcol) (by simp)
    · rw [if_neg hcr] at hcol
      by_cases hmx : min (ball.position.x - (bounds.left - r))
            (bounds.right + r - ball.position.x) <
          min (ball.position.y - (bounds.top - r)) (bounds.bottom + r - ball.position.y)
      · rw [if_pos hmx] at hcol
        by_cases hlr : ball.position.x - (bounds.left - r) <
            bounds.right + r - ball.position.x
        · rw [if_pos hlr] at hcol
          injection hcol with hb hf
          injection hf with hf
          subst hb
          subst hf
          refine ⟨?_, fun _ =>
            Or.inl (show bounds.left - r - 1 < bounds.left - r by linarith)⟩
          exact checkBrickCollision_out_none sq r _ bounds
            (Or.inl (show bounds.left - r - 1 < bounds.left - r by linarith))
        · rw [if_neg hlr] at hcol
          injection hcol with hb hf
          injection hf with hf
          subst hb
          subst hf
          refine ⟨?_, fun _ =>
            Or.inr (Or.inl (show bounds.right + r + 1 > bounds.right + r by linarith))⟩
          exact checkBrickCollision_out_none sq r _ bounds
            (Or.inr (Or.inl (show bounds.right + r + 1 > bounds.right + r by linarith)))
      · rw [if_neg hmx] at hcol
        by_cases htb : ball.position.y - (bounds.top - r) <
            bounds.bottom + r - ball.position.y
        · rw [if_pos htb] at hcol
          injection hcol with hb hf
          injection hf with hf
          subst hb
          subst hf
          refine ⟨?_, fun _ =>
            Or.inr (Or.inr (Or.inl (show bounds.top - r - 1 < bounds.top - r by linarith)))⟩
          exact checkBrickCollision_out_none sq r _ bounds
            (Or.inr (Or.inr (Or.inl (show bounds.top - r - 1 < bounds.top - r by linarith))))
        · rw [if_neg htb] at hcol
          injection hcol with hb hf
          injection hf with hf
          subst hb
          subst hf
          refine ⟨?_, fun _ =>
            Or.inr (Or.inr (Or.inr
              (show bounds.bottom + r + 1 > bounds.bottom + r by linarith)))⟩
          exact checkBrickCollision_out_none sq r _ bounds
            (Or.inr (Or.inr (Or.inr
              (show bounds.bottom + r + 1 > bounds.bottom + r by linarith))))

/-- C3 witness: the corner hit of the counterexample scenario, fed back
through the theorem — the second call on the pushed ball reports no
collision. -/
theorem checkBrickCollision_no_immediate_recollision_witness :
    (checkBrickCollision (fun q => if q = 25 then 5 else if q = 81 then 9 else 0) 8
      (⟨0, ⟨473/5, 464/5⟩, ⟨-1, -1⟩, true⟩ : Ball) ⟨100, 120, 100, 130⟩).2 = none ∧
    (Face.corner ≠ Face.corner →
      ((473:ℚ)/5 < 100 - 8 ∨ (473:ℚ)/5 > 120 + 8 ∨
       (464:ℚ)/5 < 100 - 8 ∨ (464:ℚ)/5 > 130 + 8)) := by
  have hcol : checkBrickCollision (fun q => if q = 25 then 5 else if q = 81 then 9 else 0) 8
      ⟨0, ⟨97, 96⟩, ⟨1, 1⟩, true⟩ ⟨100, 120, 100, 130⟩ =
      (⟨0, ⟨473/5, 464/5⟩, ⟨-1, -1⟩, true⟩, some Face.corner) := by
    norm_num [checkBrickCollision, cornerXOf, cornerYOf, cornerDist2]
  exact checkBrickCollision_no_immediate_recollision
    (fun q => if q = 25 then 5 else if q = 81 then 9 else 0) 8
    ⟨0, ⟨97, 96⟩, ⟨1, 1⟩, true⟩ ⟨0, ⟨473/5, 464/5⟩, ⟨-1, -1⟩, true⟩
    ⟨100, 120, 100, 130⟩ Face.corner
    (by norm_num [cornerDist2, cornerXOf, cornerYOf])
    (by norm_num [cornerDist2, cornerXOf, cornerYOf])
    (by norm_num) hcol

/-! ## C2: trajectory shape (bounce cap, endpoints) -/

/-- Each unit of bounce budget adds at most one bounce-tagged point. -/
lemma trajLoop_countP (sq : ℚ → ℚ) (p : TrajParams) (bricks : List Brick) :
    ∀ (fuel : ℕ) (pos dir : Vector2),
      ((trajLoop sq p bricks fuel pos dir).1.countP (fun tp => tp.isBounce)) ≤ fuel := by
  intro fuel
  induction fuel with
  | zero =>
    intro pos dir
    simp [trajLoop]
  | succ n ih =>
    intro pos dir
    simp only [trajLoop]
    split
    · simp [List.countP_cons]
    · split
      · simp [List.countP_cons]
      · rename_i hit heq
        have h := ih hit.point (reflectVector dir hit.normal)
        simp only [List.countP_cons]
        simp
        omega

/-- The loop either stops on the bounce cap or its point list ends in a
non-bounce point. -/
lemma trajLoop_last_or (sq : ℚ → ℚ) (p : TrajParams) (bricks : List Brick) :
    ∀ (fuel : ℕ) (pos dir : Vector2),
      (trajLoop sq p bricks fuel pos dir).2.2 = true ∨
      ∃ tp, (trajLoop sq p bricks fuel pos dir).1.getLast? = some tp ∧
        tp.isBounce = false := by
  intro fuel
  induction fuel with
  | zero =>
    intro pos dir
    left
    rfl
  | succ n ih =>
    intro pos dir
    simp only [trajLoop]
    split
    · rename_i bp heq
      right
      exact ⟨⟨bp, false⟩, by simp, rfl⟩
    · split
      · right
        exact ⟨⟨⟨pos.x + dir.x * 2000, pos.y + dir.y * 2000⟩, false⟩, by simp, rfl⟩
      · rename_i hit heq
        rcases ih hit.point (reflectVector dir hit.normal) with hcap | ⟨tp, hlast, hnb⟩
        · left
          simpa using hcap
        · right
          refine ⟨tp, ?_, hnb⟩
          rcases hR : (trajLoop sq p bricks n hit.point (reflectVector dir hit.normal)).1
            with _ | ⟨b, t⟩
          · rw [hR] at hlast
            simp at hlast
          · rw [hR] at hlast
            simpa [List.getLast?_cons_cons] using hlast

/-- C2: the predicted path always begins with exactly the start position
tagged non-bounce, contains at most `MAX_TRAJECTORY_BOUNCES` (4)
bounce-tagged points, and ends in a non-bounce point (bottom termination,
far extension, or the extra straight segment appended at the bounce cap);
this holds for every start, direction, brick list, geometry, and square
root oracle. -/
theorem calculateTrajectory_shape (sq : ℚ → ℚ) (p : TrajParams)
    (startPosition direction : Vector2) (bricks : List Brick) :
    (calculateTrajectory sq p startPosition direction bricks).head? =
      some ⟨startPosition, false⟩ ∧
    (calculateTrajectory sq p startPosition direction bricks).countP
      (fun tp => tp.isBounce) ≤ MAX_TRAJECTORY_BOUNCES ∧
    ((calculateTrajectory sq p startPosition direction bricks).getLastD
      ⟨⟨0, 0⟩, true⟩).isBounce = false := by
  have hcount := trajLoop_countP sq p bricks MAX_TRAJECTORY_BOUNCES startPosition
    (normalizeVector sq direction)
  have hlast := trajLoop_last_or sq p bricks MAX_TRAJECTORY_BOUNCES startPosition
    (normalizeVector sq direction)
  simp only [calculateTrajectory]
  split
  · split
    · rename_i hcap hsome
      refine ⟨by simp, ?_, ?_⟩
      · rw [List.countP_append, List.countP_cons]
        simp
        omega
      · rw [List.getLastD_concat]
    · rename_i hsome
      -- `getLast?` of a cons list is never `none`
      simp at hsome
  · rename_i hnotcap
    have hcapf : (trajLoop sq p bricks MAX_TRAJECTORY_BOUNCES startPosition
        (normalizeVector sq direction)).2.2 = false := by
      rcases hb : (trajLoop sq p bricks MAX_TRAJECTORY_BOUNCES startPosition
          (normalizeVector sq direction)).2.2 with _ | _
      · rfl
      · exact absurd ⟨hb, by simp⟩ hnotcap
    rcases hlast with hcap | ⟨tp, hlp, hnb⟩
    · rw [hcapf] at hcap
      exact absurd hcap (by simp)
    · refine ⟨by simp, ?_, ?_⟩
      · rw [List.countP_cons]
        simp
        omega
      · have hne : (trajLoop sq p bricks MAX_TRAJECTORY_BOUNCES startPosition
            (normalizeVector sq direction)).1 ≠ [] := by
          intro hnil
          rw [hnil] at hlp
          simp at hlp
        rcases hR : (trajLoop sq p bricks MAX_TRAJECTORY_BOUNCES startPosition
            (normalizeVector sq direction)).1 with _ | ⟨b, t⟩
        · exact absurd hR hne
        · rw [hR] at hlp
          rw [List.getLastD_eq_getLast?, List.getLast?_cons_cons, hlp]
          exact hnb

/-- C2 witness: concrete trajectory with a zero aim direction, no bricks
and the zero oracle (two points: the origin twice, both non-bounce). -/
theorem calculateTrajectory_shape_witness :
    (calculateTrajectory (fun _ => 0) ⟨300, 8, 30, 20, 0, 60, 2, 500⟩
      ⟨50, 50⟩ ⟨0, 0⟩ []).head? = some ⟨⟨50, 50⟩, false⟩ ∧
    (calculateTrajectory (fun _ => 0) ⟨300, 8, 30, 20, 0, 60, 2, 500⟩
      ⟨50, 50⟩ ⟨0, 0⟩ []).countP (fun tp => tp.isBounce) ≤ MAX_TRAJECTORY_BOUNCES ∧
    ((calculateTrajectory (fun _ => 0) ⟨300, 8, 30, 20, 0, 60, 2, 500⟩
      ⟨50, 50⟩ ⟨0, 0⟩ []).getLastD ⟨⟨0, 0⟩, true⟩).isBounce = false :=
  calculateTrajectory_shape (fun _ => 0) ⟨300, 8, 30, 20, 0, 60, 2, 500⟩ ⟨50, 50⟩ ⟨0, 0⟩ []

end BlitzBallz
